import Mathlib

/-!
Verification of the Mongo-backed core-data client (`clients` package, mongo client file).

The client is modelled as pure state transformers over an in-memory image of the three
document collections.  The wall clock (`time.Now`, in milliseconds) and the object-id
generator (`bson.NewObjectId`) are passed in explicitly: `now : Int` is the current time
and fresh object ids are drawn from a counter `ctr : Nat`, successive calls yielding
`ctr`, `ctr + 1`, ...  Store calls that the surrounding code distinguishes only by
success/failure (driver errors) take an explicit `Bool` flag: `true` means the store call
succeeds, `false` means it fails with a driver-level error (surfaced as `Err.unexpected`).
-/

set_option autoImplicit false

namespace EdgexMongo

/-- Object ids: `bson.ObjectId` is a 12-byte value; modelled as a natural number
(valid hex ids decode injectively into `Nat`). -/
abbrev ObjectId := Nat

/-- Modelled from the spec: `models.Reading` (domain model, outside the given sources) —
identifier, value-descriptor name, device identifier, value payload,
creation/modification timestamps (ms since epoch).  Defaults are Go zero values. -/
structure Reading where
  id : Nat := 0
  name : String := ""
  device : String := ""
  value : String := ""
  created : Int := 0
  modified : Int := 0
deriving DecidableEq, Repr

/-- Modelled from the spec: `models.Event` (domain model, outside the given sources) —
identifier, owning device identifier, creation/modification timestamps, pushed
timestamp (0 = never pushed), ordered embedded readings.  The event document stored in
the events collection carries the event's fields together with its readings (the source
stores them as DBRefs de-referenced on load); a whole-document write therefore carries
the written event's readings list. -/
structure Event where
  id : Nat := 0
  device : String := ""
  created : Int := 0
  modified : Int := 0
  pushed : Int := 0
  readings : List Reading := []
deriving DecidableEq, Repr

/-- Modelled from the spec: `models.ValueDescriptor` (domain model, outside the given
sources) — identifier, unique name, unit-of-measure label, labels, type tag,
creation/modification timestamps. -/
structure ValueDescriptor where
  id : Nat := 0
  name : String := ""
  uomLabel : String := ""
  labels : List String := []
  type : String := ""
  created : Int := 0
  modified : Int := 0
deriving DecidableEq, Repr

/-- The four error kinds of the client (`ErrNotFound`, `ErrInvalidObjectId`,
`ErrNotUnique` declared alongside the client; any other store/driver failure is
`unexpected`). -/
inductive Err where
  | notFound
  | invalidObjectId
  | notUnique
  | unexpected
deriving DecidableEq, Repr

def EVENTS_COLLECTION : String := "event"

def READINGS_COLLECTION : String := "reading"

def VALUE_DESCRIPTOR_COLLECTION : String := "valueDescriptor"

/-- In-memory image of the three collections of the core-data database. -/
structure MongoDB where
  events : List Event := []
  readings : List Reading := []
  valueDescriptors : List ValueDescriptor := []
deriving DecidableEq, Repr

/-- A hex digit as accepted by `encoding/hex` (used by `bson.IsObjectIdHex`). -/
def isHexChar (c : Char) : Bool :=
  ('0' ≤ c && c ≤ '9') || ('a' ≤ c && c ≤ 'f') || ('A' ≤ c && c ≤ 'F')

/-- `bson.IsObjectIdHex`: the string is exactly 24 hex characters.  (The Go code checks
byte length 24 and hex-decodability; since hex characters are ASCII, this coincides with
24 hex characters.)  A pure, syntactic check on the string. -/
def IsObjectIdHex (s : String) : Bool :=
  s.length = 24 && s.toList.all isHexChar

/-- Numeric value of one hex digit. -/
def hexVal (c : Char) : Nat :=
  if '0' ≤ c && c ≤ '9' then c.toNat - '0'.toNat
  else if 'a' ≤ c && c ≤ 'f' then c.toNat - 'a'.toNat + 10
  else if 'A' ≤ c && c ≤ 'F' then c.toNat - 'A'.toNat + 10
  else 0

/-- `bson.ObjectIdHex`: decode a 24-character hex string into the object id it denotes. -/
def objectIdOfHex (s : String) : ObjectId :=
  s.toList.foldl (fun a c => a * 16 + hexVal c) 0

/-- Replace the first element whose id equals `v`'s id by `v` (semantics of an
`UpdateId` whole-document replacement on a collection). -/
def replaceFirstBy {α : Type} (idOf : α → ObjectId) : List α → α → List α
  | [], _ => []
  | w :: ws, v => if idOf w = idOf v then v :: ws else w :: replaceFirstBy idOf ws v

/-- `UpdateId` on a collection: replace the document with the given id by `v`;
`none` models `mgo.ErrNotFound` (no document carries that id). -/
def updateId {α : Type} (idOf : α → ObjectId) (l : List α) (v : α) : Option (List α) :=
  if l.any (fun w => decide (idOf w = idOf v)) then some (replaceFirstBy idOf l v) else none

/-- `RemoveId` on a collection: remove the single document with the given id;
`none` models `mgo.ErrNotFound`. -/
def removeId {α : Type} (idOf : α → ObjectId) (l : List α) (oid : ObjectId) : Option (List α) :=
  if l.any (fun w => decide (idOf w = oid)) then some (l.eraseP (fun w => decide (idOf w = oid)))
  else none

-- ******************************* EVENTS **********************************

/-- Result of `AddEvent`: returned id and error, the caller's event as mutated through
the pointer (`*models.Event`), the database afterwards, and the id counter afterwards. -/
structure AddEventResult where
  id : Nat
  err : Option Err
  event : Event
  db : MongoDB
  ctr : Nat
deriving DecidableEq, Repr

/-- The reading-stamping loop of `AddEvent`: each embedded reading receives a fresh id
(successive counter values), the event's creation time and the event's device. -/
def stampReadings (created : Int) (device : String) : List Reading → Nat → List Reading
  | [], _ => []
  | r :: rs, c =>
      { r with id := c, created := created, device := device } :: stampReadings created device rs (c + 1)

/-- The final `Insert` of the event document in `AddEvent` (after the readings have been
handled); `ok` is the outcome of that store call. -/
def insertEventDoc (db : MongoDB) (e : Event) (ok : Bool) (ctr : Nat) : AddEventResult :=
  if ok then { id := e.id, err := none, event := e, db := { db with events := db.events ++ [e] }, ctr := ctr }
  else { id := e.id, err := some Err.unexpected, event := e, db := db, ctr := ctr }

/-- `AddEvent`: stamp the event with `Created := now` and a fresh id; if the embedded
readings list is nonempty, stamp every reading with a fresh id, the event's creation
time and the event's device and insert them into the readings collection (aborting with
the error if that insert fails); then insert the event document.
`readingsInsertOk` / `eventInsertOk` are the outcomes of the two store inserts. -/
def AddEvent (db : MongoDB) (e : Event) (now : Int) (ctr : Nat)
    (readingsInsertOk eventInsertOk : Bool) : AddEventResult :=
  let e1 : Event := { e with created := now, id := ctr }
  if e1.readings = [] then
    insertEventDoc db e1 eventInsertOk (ctr + 1)
  else
    let rs := stampReadings now e1.device e1.readings (ctr + 1)
    let e2 : Event := { e1 with readings := rs }
    if readingsInsertOk then
      insertEventDoc { db with readings := db.readings ++ rs } e2 eventInsertOk (ctr + 1 + rs.length)
    else
      { id := e2.id, err := some Err.unexpected, event := e2, db := db, ctr := ctr + 1 + rs.length }

/-- `UpdateEvent`: stamp the modification time and replace the event document by id
(`UpdateId` with the whole document built from the caller's event); `ErrNotFound` when
no event carries that id. -/
def UpdateEvent (db : MongoDB) (e : Event) (now : Int) : Option Err × MongoDB :=
  let me : Event := { e with modified := now }
  match updateId Event.id db.events me with
  | some l => (none, { db with events := l })
  | none => (some Err.notFound, db)

/-- `getEvent`: `Find(q).One` on the events collection, mapping `mgo.ErrNotFound` to
`ErrNotFound`. -/
def getEvent (db : MongoDB) (q : Event → Bool) : Except Err Event :=
  match db.events.find? q with
  | some ev => Except.ok ev
  | none => Except.error Err.notFound

/-- `EventById`: validate the id string, then fetch by id. -/
def EventById (db : MongoDB) (id : String) : Except Err Event :=
  if !IsObjectIdHex id then Except.error Err.invalidObjectId
  else getEvent db (fun ev => decide (ev.id = objectIdOfHex id))

/-- `getEvents`: `Find(q).All` on the events collection. -/
def getEvents (db : MongoDB) (q : Event → Bool) : List Event × Option Err :=
  (db.events.filter q, none)

/-- `getEventsLimit`: returns the empty list with no error when `limit = 0`, before any
store call; otherwise `Find(q).Limit(limit).All` (`storeOk` is that call's outcome;
mgo sends `|limit|` for a negative argument). -/
def getEventsLimit (db : MongoDB) (q : Event → Bool) (limit : Int) (storeOk : Bool) :
    List Event × Option Err :=
  if limit = 0 then ([], none)
  else if storeOk then ((db.events.filter q).take limit.natAbs, none)
  else ([], some Err.unexpected)

/-- `EventsForDeviceLimit`: events of a device, capped by `limit`. -/
def EventsForDeviceLimit (db : MongoDB) (id : String) (limit : Int) (storeOk : Bool) :
    List Event × Option Err :=
  getEventsLimit db (fun ev => decide (ev.device = id)) limit storeOk

/-- `EventsByCreationTime`: events with `startTime <= created <= endTime`, capped by
`limit`. -/
def EventsByCreationTime (db : MongoDB) (startTime endTime : Int) (limit : Int) (storeOk : Bool) :
    List Event × Option Err :=
  getEventsLimit db (fun ev => decide (startTime ≤ ev.created) && decide (ev.created ≤ endTime)) limit storeOk

/-- `EventsOlderThanAge`: events with `created < now - age`. -/
def EventsOlderThanAge (db : MongoDB) (age : Int) (now : Int) : List Event × Option Err :=
  getEvents db (fun ev => decide (ev.created < now - age))

/-- `DeleteEventById` delegates to the shared `deleteById` helper (defined below with
the value-descriptor operations, as in the source). -/
def removeFromCollection (db : MongoDB) (col : String) (oid : ObjectId) : Option Err × MongoDB :=
  if col = EVENTS_COLLECTION then
    match removeId Event.id db.events oid with
    | some l => (none, { db with events := l })
    | none => (some Err.notFound, db)
  else if col = READINGS_COLLECTION then
    match removeId Reading.id db.readings oid with
    | some l => (none, { db with readings := l })
    | none => (some Err.notFound, db)
  else if col = VALUE_DESCRIPTOR_COLLECTION then
    match removeId ValueDescriptor.id db.valueDescriptors oid with
    | some l => (none, { db with valueDescriptors := l })
    | none => (some Err.notFound, db)
  else (some Err.notFound, db)

/-- `deleteById(id, collection)`: validate the id string (`ErrInvalidObjectId` on
failure, before any store call), then `RemoveId`, mapping the store's not-found to
`ErrNotFound`. -/
def deleteById (db : MongoDB) (id : String) (col : String) : Option Err × MongoDB :=
  if !IsObjectIdHex id then (some Err.invalidObjectId, db)
  else removeFromCollection db col (objectIdOfHex id)

/-- `DeleteEventById`. -/
def DeleteEventById (db : MongoDB) (id : String) : Option Err × MongoDB :=
  deleteById db id EVENTS_COLLECTION

-- ************************ READINGS ************************************

/-- `getReading`: `Find(q).One` on the readings collection. -/
def getReading (db : MongoDB) (q : Reading → Bool) : Except Err Reading :=
  match db.readings.find? q with
  | some r => Except.ok r
  | none => Except.error Err.notFound

/-- `ReadingById`: validate the id string, then fetch by id. -/
def ReadingById (db : MongoDB) (id : String) : Except Err Reading :=
  if !IsObjectIdHex id then Except.error Err.invalidObjectId
  else getReading db (fun r => decide (r.id = objectIdOfHex id))

/-- `DeleteReadingById`: validate the id string, then delegate to `deleteById` (which
validates again). -/
def DeleteReadingById (db : MongoDB) (id : String) : Option Err × MongoDB :=
  if !IsObjectIdHex id then (some Err.invalidObjectId, db)
  else deleteById db id READINGS_COLLECTION

/-- `getReadingsLimit`: returns the empty list with no error when `limit = 0`, before
any store call; otherwise `Find(q).Limit(limit).All`. -/
def getReadingsLimit (db : MongoDB) (q : Reading → Bool) (limit : Int) (storeOk : Bool) :
    List Reading × Option Err :=
  if limit = 0 then ([], none)
  else if storeOk then ((db.readings.filter q).take limit.natAbs, none)
  else ([], some Err.unexpected)

/-- `ReadingsByDevice`. -/
def ReadingsByDevice (db : MongoDB) (id : String) (limit : Int) (storeOk : Bool) :
    List Reading × Option Err :=
  getReadingsLimit db (fun r => decide (r.device = id)) limit storeOk

/-- `ReadingsByValueDescriptor`: readings whose value-descriptor name equals `name`. -/
def ReadingsByValueDescriptor (db : MongoDB) (name : String) (limit : Int) (storeOk : Bool) :
    List Reading × Option Err :=
  getReadingsLimit db (fun r => decide (r.name = name)) limit storeOk

/-- `ReadingsByValueDescriptorNames`: readings whose name is in the given set (`$in`). -/
def ReadingsByValueDescriptorNames (db : MongoDB) (names : List String) (limit : Int)
    (storeOk : Bool) : List Reading × Option Err :=
  getReadingsLimit db (fun r => names.contains r.name) limit storeOk

/-- `ReadingsByCreationTime`: readings with `start <= created <= end`. -/
def ReadingsByCreationTime (db : MongoDB) (start finish : Int) (limit : Int) (storeOk : Bool) :
    List Reading × Option Err :=
  getReadingsLimit db (fun r => decide (start ≤ r.created) && decide (r.created ≤ finish)) limit storeOk

/-- `ReadingsByDeviceAndValueDescriptor`. -/
def ReadingsByDeviceAndValueDescriptor (db : MongoDB) (deviceId valueDescriptor : String)
    (limit : Int) (storeOk : Bool) : List Reading × Option Err :=
  getReadingsLimit db (fun r => decide (r.device = deviceId) && decide (r.name = valueDescriptor)) limit storeOk

-- ************************* VALUE DESCRIPTORS *****************************

/-- `getValueDescriptor`: `Find(q).One` on the value-descriptor collection. -/
def getValueDescriptor (db : MongoDB) (q : ValueDescriptor → Bool) : Except Err ValueDescriptor :=
  match db.valueDescriptors.find? q with
  | some v => Except.ok v
  | none => Except.error Err.notFound

/-- The mgo `Upsert({name: v.Name}, v)` when a document with the name exists: the first
matching document is replaced by the update document, keeping its `_id` (a replacement
update cannot change `_id`; `v` is marshalled with `_id` omitted). -/
def upsertReplace : List ValueDescriptor → ValueDescriptor → List ValueDescriptor
  | [], _ => []
  | w :: ws, v => if w.name = v.name then { v with id := w.id } :: ws else w :: upsertReplace ws v

/-- `AddValueDescriptor`: stamp `Created := now`, then `Upsert` keyed on the name.
If a document with the name already exists the upsert matches it (replacing it with the
caller's payload, `_id` kept), `info.UpsertedId` is nil and the client returns
`ErrNotUnique` with the caller's id; otherwise the upsert inserts the document with a
fresh store-generated id, which is returned. -/
def AddValueDescriptor (db : MongoDB) (v : ValueDescriptor) (now : Int) (ctr : Nat) :
    (ObjectId × Option Err) × MongoDB :=
  let v1 : ValueDescriptor := { v with created := now }
  if db.valueDescriptors.any (fun w => decide (w.name = v1.name)) then
    ((v.id, some Err.notUnique), { db with valueDescriptors := upsertReplace db.valueDescriptors v1 })
  else
    ((ctr, none), { db with valueDescriptors := db.valueDescriptors ++ [{ v1 with id := ctr }] })

/-- `UpdateValueDescriptor`: resolve the prospective name; a hit whose id differs from
the updated descriptor's id is `ErrNotUnique` (nothing changed); otherwise stamp the
modification time and replace by id, `ErrNotFound` when the id is absent. -/
def UpdateValueDescriptor (db : MongoDB) (v : ValueDescriptor) (now : Int) :
    Option Err × MongoDB :=
  match db.valueDescriptors.find? (fun w => decide (w.name = v.name)) with
  | some vd =>
      if vd.id ≠ v.id then (some Err.notUnique, db)
      else
        match updateId ValueDescriptor.id db.valueDescriptors { v with modified := now } with
        | some l => (none, { db with valueDescriptors := l })
        | none => (some Err.notFound, db)
  | none =>
      match updateId ValueDescriptor.id db.valueDescriptors { v with modified := now } with
      | some l => (none, { db with valueDescriptors := l })
      | none => (some Err.notFound, db)

/-- `ValueDescriptorByName`: fetch by name; `storeOk` is the outcome of the underlying
store call (`false` models a driver-level failure other than not-found). -/
def ValueDescriptorByName (db : MongoDB) (name : String) (storeOk : Bool) :
    Except Err ValueDescriptor :=
  if !storeOk then Except.error Err.unexpected
  else getValueDescriptor db (fun w => decide (w.name = name))

/-- The accumulation loop of `ValueDescriptorsByName`: one fetch per name, in list
order; a not-found is skipped silently, any other error aborts with the empty list and
that error. -/
def vdByNameLoop (db : MongoDB) (acc : List ValueDescriptor) :
    List (String × Bool) → List ValueDescriptor × Option Err
  | [] => (acc, none)
  | (name, ok) :: rest =>
      match ValueDescriptorByName db name ok with
      | Except.error Err.notFound => vdByNameLoop db acc rest
      | Except.error e => ([], some e)
      | Except.ok v => vdByNameLoop db (acc ++ [v]) rest

/-- `ValueDescriptorsByName`: each name is paired with the outcome of its store call. -/
def ValueDescriptorsByName (db : MongoDB) (names : List (String × Bool)) :
    List ValueDescriptor × Option Err :=
  vdByNameLoop db [] names

/-- `ValueDescriptorById`: validate the id string, then fetch by id. -/
def ValueDescriptorById (db : MongoDB) (id : String) : Except Err ValueDescriptor :=
  if !IsObjectIdHex id then Except.error Err.invalidObjectId
  else getValueDescriptor db (fun w => decide (w.id = objectIdOfHex id))

/-- `DeleteValueDescriptorById`: validate the id string, then delegate to `deleteById`. -/
def DeleteValueDescriptorById (db : MongoDB) (id : String) : Option Err × MongoDB :=
  if !IsObjectIdHex id then (some Err.invalidObjectId, db)
  else deleteById db id VALUE_DESCRIPTOR_COLLECTION

-- ************************* THEOREMS *****************************

/-- The stamping loop preserves the number of readings. -/
theorem stampReadings_length (created : Int) (device : String) :
    ∀ (rs : List Reading) (c : Nat), (stampReadings created device rs c).length = rs.length
  | [], _ => rfl
  | _ :: rs, c => by
      simp [stampReadings, stampReadings_length created device rs (c + 1)]

/-- Every stamped reading carries the given creation time and device, and an id drawn
from the fresh-id window starting at `c`. -/
theorem stampReadings_mem (created : Int) (device : String) :
    ∀ (rs : List Reading) (c : Nat) (r : Reading), r ∈ stampReadings created device rs c →
      r.created = created ∧ r.device = device ∧ c ≤ r.id ∧ r.id < c + rs.length := by
  intro rs
  induction rs with
  | nil => intro c r hr; simp [stampReadings] at hr
  | cons hd tl ih =>
    intro c r hr
    simp only [stampReadings, List.mem_cons] at hr
    rcases hr with h | h
    · subst h
      refine ⟨rfl, rfl, Nat.le_refl _, ?_⟩
      show c < c + (hd :: tl).length
      simp only [List.length_cons]
      omega
    · obtain ⟨h1, h2, h3, h4⟩ := ih (c + 1) r h
      refine ⟨h1, h2, ?_, ?_⟩
      · omega
      · simp only [List.length_cons]
        omega

/-- The ids assigned by the stamping loop are the successive values `c, c+1, ...`. -/
theorem stampReadings_map_id (created : Int) (device : String) :
    ∀ (rs : List Reading) (c : Nat),
      (stampReadings created device rs c).map Reading.id = List.range' c rs.length
  | [], _ => rfl
  | _ :: rs, c => by
      simp [stampReadings, stampReadings_map_id created device rs (c + 1), List.range'_succ]

/-- C2: every list operation that accepts a limit returns the empty result with no error
at `limit = 0` — whatever the collections hold and whatever the store call would have
done — and a nonzero limit caps the result by truncation (at most `|limit|` rows, no
error) when the store call succeeds. -/
theorem limit_zero_empty_and_nonzero_truncates (db : MongoDB)
    (devId name vdName : String) (names : List String) (startT endT : Int)
    (limit : Int) (ok : Bool) (h : limit ≠ 0) :
    (EventsForDeviceLimit db devId 0 ok = ([], none) ∧
     EventsByCreationTime db startT endT 0 ok = ([], none) ∧
     ReadingsByDevice db devId 0 ok = ([], none) ∧
     ReadingsByValueDescriptor db name 0 ok = ([], none) ∧
     ReadingsByValueDescriptorNames db names 0 ok = ([], none) ∧
     ReadingsByCreationTime db startT endT 0 ok = ([], none) ∧
     ReadingsByDeviceAndValueDescriptor db devId vdName 0 ok = ([], none)) ∧
    ((EventsForDeviceLimit db devId limit true).2 = none ∧
     (EventsForDeviceLimit db devId limit true).1.length ≤ limit.natAbs ∧
     (EventsByCreationTime db startT endT limit true).2 = none ∧
     (EventsByCreationTime db startT endT limit true).1.length ≤ limit.natAbs ∧
     (ReadingsByDevice db devId limit true).2 = none ∧
     (ReadingsByDevice db devId limit true).1.length ≤ limit.natAbs ∧
     (ReadingsByValueDescriptor db name limit true).2 = none ∧
     (ReadingsByValueDescriptor db name limit true).1.length ≤ limit.natAbs ∧
     (ReadingsByValueDescriptorNames db names limit true).2 = none ∧
     (ReadingsByValueDescriptorNames db names limit true).1.length ≤ limit.natAbs ∧
     (ReadingsByCreationTime db startT endT limit true).2 = none ∧
     (ReadingsByCreationTime db startT endT limit true).1.length ≤ limit.natAbs ∧
     (ReadingsByDeviceAndValueDescriptor db devId vdName limit true).2 = none ∧
     (ReadingsByDeviceAndValueDescriptor db devId vdName limit true).1.length ≤ limit.natAbs) := by
  constructor
  · simp [EventsForDeviceLimit, EventsByCreationTime, ReadingsByDevice,
      ReadingsByValueDescriptor, ReadingsByValueDescriptorNames, ReadingsByCreationTime,
      ReadingsByDeviceAndValueDescriptor, getEventsLimit, getReadingsLimit]
  · simp only [EventsForDeviceLimit, EventsByCreationTime, ReadingsByDevice,
      ReadingsByValueDescriptor, ReadingsByValueDescriptorNames, ReadingsByCreationTime,
      ReadingsByDeviceAndValueDescriptor, getEventsLimit, getReadingsLimit, if_neg h,
      if_pos rfl, if_true]
    refine ⟨trivial, ?_, trivial, ?_, trivial, ?_, trivial, ?_, trivial, ?_, trivial, ?_, trivial, ?_⟩ <;>
      exact List.length_take_le _ _

/-- Witness for `limit_zero_empty_and_nonzero_truncates` at a concrete database and
limit 2 with three matching readings. -/
theorem limit_zero_empty_and_nonzero_truncates_witness :
    (EventsForDeviceLimit { } "d1" 0 true = ([], none) ∧
     EventsByCreationTime { } 0 10 0 true = ([], none) ∧
     ReadingsByDevice { } "d1" 0 true = ([], none) ∧
     ReadingsByValueDescriptor { } "temp" 0 true = ([], none) ∧
     ReadingsByValueDescriptorNames { } ["temp"] 0 true = ([], none) ∧
     ReadingsByCreationTime { } 0 10 0 true = ([], none) ∧
     ReadingsByDeviceAndValueDescriptor { } "d1" "temp" 0 true = ([], none)) ∧
    ((EventsForDeviceLimit { } "d1" 2 true).2 = none ∧
     (EventsForDeviceLimit { } "d1" 2 true).1.length ≤ (2 : Int).natAbs ∧
     (EventsByCreationTime { } 0 10 2 true).2 = none ∧
     (EventsByCreationTime { } 0 10 2 true).1.length ≤ (2 : Int).natAbs ∧
     (ReadingsByDevice { } "d1" 2 true).2 = none ∧
     (ReadingsByDevice { } "d1" 2 true).1.length ≤ (2 : Int).natAbs ∧
     (ReadingsByValueDescriptor { } "temp" 2 true).2 = none ∧
     (ReadingsByValueDescriptor { } "temp" 2 true).1.length ≤ (2 : Int).natAbs ∧
     (ReadingsByValueDescriptorNames { } ["temp"] 2 true).2 = none ∧
     (ReadingsByValueDescriptorNames { } ["temp"] 2 true).1.length ≤ (2 : Int).natAbs ∧
     (ReadingsByCreationTime { } 0 10 2 true).2 = none ∧
     (ReadingsByCreationTime { } 0 10 2 true).1.length ≤ (2 : Int).natAbs ∧
     (ReadingsByDeviceAndValueDescriptor { } "d1" "temp" 2 true).2 = none ∧
     (ReadingsByDeviceAndValueDescriptor { } "d1" "temp" 2 true).1.length ≤ (2 : Int).natAbs) :=
  limit_zero_empty_and_nonzero_truncates { } "d1" "temp" "temp" ["temp"] 0 10 2 true (by decide)

/-- C3: a successful `AddEvent` assigns the event a fresh id and the creation time
`now`, stamps every embedded reading with a fresh id (all pairwise distinct and unused),
that same creation time and the event's device, appends the stamped readings to the
readings collection and the stamped event to the events collection; the readings are
inserted before the event (they are present even when the event insert fails).  Hence
every reading embedded in the added event carries the event's creation timestamp and
device identifier. -/
theorem addEvent_stamps_and_inserts (db : MongoDB) (e : Event) (now : Int) (ctr : Nat)
    (hev : ∀ w ∈ db.events, w.id < ctr) (hrd : ∀ r ∈ db.readings, r.id < ctr) :
    (AddEvent db e now ctr true true).err = none ∧
    (AddEvent db e now ctr true true).event.id = ctr ∧
    (AddEvent db e now ctr true true).event.created = now ∧
    (AddEvent db e now ctr true true).event.device = e.device ∧
    (AddEvent db e now ctr true true).event.id ∉ db.events.map Event.id ∧
    (AddEvent db e now ctr true true).db.events =
      db.events ++ [(AddEvent db e now ctr true true).event] ∧
    (AddEvent db e now ctr true true).db.readings =
      db.readings ++ (AddEvent db e now ctr true true).event.readings ∧
    (AddEvent db e now ctr true true).event.readings.length = e.readings.length ∧
    ((AddEvent db e now ctr true true).event.readings.map Reading.id).Nodup ∧
    (∀ r ∈ (AddEvent db e now ctr true true).event.readings,
        r.created = (AddEvent db e now ctr true true).event.created ∧
        r.device = (AddEvent db e now ctr true true).event.device ∧
        ctr < r.id ∧ r.id ∉ db.readings.map Reading.id) ∧
    (AddEvent db e now ctr true false).db.readings =
      db.readings ++ (AddEvent db e now ctr true true).event.readings ∧
    (AddEvent db e now ctr true false).db.events = db.events := by
  have hfresh_ev : ctr ∉ db.events.map Event.id := by
    intro hmem
    obtain ⟨w, hw, hwid⟩ := List.mem_map.mp hmem
    have := hev w hw
    omega
  by_cases hr : e.readings = []
  · simp [AddEvent, hr, insertEventDoc, hfresh_ev]
  · have hrs := stampReadings_mem now e.device e.readings (ctr + 1)
    have hmap := stampReadings_map_id now e.device e.readings (ctr + 1)
    have hlen := stampReadings_length now e.device e.readings (ctr + 1)
    simp only [AddEvent, insertEventDoc, hr, if_neg, if_pos, ite_true, ite_false,
      if_false, Bool.true_eq_false, if_neg hr]
    refine ⟨trivial, trivial, trivial, trivial, hfresh_ev, trivial, trivial, hlen, ?_, ?_, by simp, by simp⟩
    · rw [hmap]
      exact List.nodup_range' _ _
    · intro r hrmem
      obtain ⟨h1, h2, h3, h4⟩ := hrs r hrmem
      refine ⟨h1, h2, by omega, ?_⟩
      intro hm
      obtain ⟨w, hw, hwid⟩ := List.mem_map.mp hm
      have := hrd w hw
      omega

/-- Witness for `addEvent_stamps_and_inserts`: one event with one reading added to the
empty database at time 5 with the counter at 1. -/
theorem addEvent_stamps_and_inserts_witness :
    (AddEvent { } { device := "d1", readings := [{ name := "temp" }] } 5 1 true true).err = none ∧
    (AddEvent { } { device := "d1", readings := [{ name := "temp" }] } 5 1 true true).event.id = 1 ∧
    (AddEvent { } { device := "d1", readings := [{ name := "temp" }] } 5 1 true true).event.created = 5 ∧
    (AddEvent { } { device := "d1", readings := [{ name := "temp" }] } 5 1 true true).event.device =
      ({ device := "d1", readings := [{ name := "temp" }] } : Event).device ∧
    (AddEvent { } { device := "d1", readings := [{ name := "temp" }] } 5 1 true true).event.id ∉
      ({ } : MongoDB).events.map Event.id ∧
    (AddEvent { } { device := "d1", readings := [{ name := "temp" }] } 5 1 true true).db.events =
      ({ } : MongoDB).events ++
        [(AddEvent { } { device := "d1", readings := [{ name := "temp" }] } 5 1 true true).event] ∧
    (AddEvent { } { device := "d1", readings := [{ name := "temp" }] } 5 1 true true).db.readings =
      ({ } : MongoDB).readings ++
        (AddEvent { } { device := "d1", readings := [{ name := "temp" }] } 5 1 true true).event.readings ∧
    (AddEvent { } { device := "d1", readings := [{ name := "temp" }] } 5 1 true true).event.readings.length =
      ({ device := "d1", readings := [{ name := "temp" }] } : Event).readings.length ∧
    ((AddEvent { } { device := "d1", readings := [{ name := "temp" }] } 5 1 true true).event.readings.map Reading.id).Nodup ∧
    (∀ r ∈ (AddEvent { } { device := "d1", readings := [{ name := "temp" }] } 5 1 true true).event.readings,
        r.created = (AddEvent { } { device := "d1", readings := [{ name := "temp" }] } 5 1 true true).event.created ∧
        r.device = (AddEvent { } { device := "d1", readings := [{ name := "temp" }] } 5 1 true true).event.device ∧
        1 < r.id ∧ r.id ∉ ({ } : MongoDB).readings.map Reading.id) ∧
    (AddEvent { } { device := "d1", readings := [{ name := "temp" }] } 5 1 true false).db.readings =
      ({ } : MongoDB).readings ++
        (AddEvent { } { device := "d1", readings := [{ name := "temp" }] } 5 1 true true).event.readings ∧
    (AddEvent { } { device := "d1", readings := [{ name := "temp" }] } 5 1 true false).db.events =
      ({ } : MongoDB).events :=
  addEvent_stamps_and_inserts { } { device := "d1", readings := [{ name := "temp" }] } 5 1
    (by decide) (by decide)

/-- C4: when the readings insert succeeds and the subsequent event insert fails, the
error is returned, the events collection is unchanged, and the readings collection keeps
the inserted (stamped) readings — no rollback. -/
theorem addEvent_event_insert_failure_keeps_readings (db : MongoDB) (e : Event)
    (now : Int) (ctr : Nat) :
    (AddEvent db e now ctr true false).err = some Err.unexpected ∧
    (AddEvent db e now ctr true false).db.events = db.events ∧
    (AddEvent db e now ctr true false).db.readings =
      db.readings ++ (AddEvent db e now ctr true false).event.readings := by
  by_cases hr : e.readings = [] <;> simp [AddEvent, insertEventDoc, hr]

/-- C5: a string that is not a well-formed object-id hex string is rejected with
`ErrInvalidObjectId` by every string-id-keyed get and delete (the check is the pure
syntactic `IsObjectIdHex`), and the database is returned unchanged — no store call. -/
theorem invalid_id_rejected_before_store (db : MongoDB) (id col : String)
    (h : IsObjectIdHex id = false) :
    EventById db id = Except.error Err.invalidObjectId ∧
    ReadingById db id = Except.error Err.invalidObjectId ∧
    ValueDescriptorById db id = Except.error Err.invalidObjectId ∧
    DeleteEventById db id = (some Err.invalidObjectId, db) ∧
    DeleteReadingById db id = (some Err.invalidObjectId, db) ∧
    DeleteValueDescriptorById db id = (some Err.invalidObjectId, db) ∧
    deleteById db id col = (some Err.invalidObjectId, db) := by
  simp [EventById, ReadingById, ValueDescriptorById, DeleteEventById, DeleteReadingById,
    DeleteValueDescriptorById, deleteById, h]

/-- Witness for `invalid_id_rejected_before_store` at the spec's scenario string. -/
theorem invalid_id_rejected_before_store_witness :
    EventById { } "not-a-hex-id" = Except.error Err.invalidObjectId ∧
    ReadingById { } "not-a-hex-id" = Except.error Err.invalidObjectId ∧
    ValueDescriptorById { } "not-a-hex-id" = Except.error Err.invalidObjectId ∧
    DeleteEventById { } "not-a-hex-id" = (some Err.invalidObjectId, { }) ∧
    DeleteReadingById { } "not-a-hex-id" = (some Err.invalidObjectId, { }) ∧
    DeleteValueDescriptorById { } "not-a-hex-id" = (some Err.invalidObjectId, { }) ∧
    deleteById { } "not-a-hex-id" "reading" = (some Err.invalidObjectId, { }) :=
  invalid_id_rejected_before_store { } "not-a-hex-id" "reading" (by decide)

/-- C9: immediately after a successful `AddEvent` at a nonzero time `now`, the added
event's creation time is `now` (not strictly older than now), so `EventsOlderThanAge 0`
evaluated at the same instant returns the empty result on a previously empty events
collection. -/
theorem eventsOlderThanAge_zero_after_add_empty (db : MongoDB) (e : Event)
    (now : Int) (ctr : Nat) (h0 : now ≠ 0) (hemp : db.events = []) :
    EventsOlderThanAge (AddEvent db e now ctr true true).db 0 now = ([], none) ∧
    (AddEvent db e now ctr true true).event.created = now := by
  by_cases hr : e.readings = [] <;>
    simp [AddEvent, insertEventDoc, hr, EventsOlderThanAge, getEvents, hemp]

/-- Witness for `eventsOlderThanAge_zero_after_add_empty`: add one event carrying one
reading at time 5 to the empty database. -/
theorem eventsOlderThanAge_zero_after_add_empty_witness :
    EventsOlderThanAge (AddEvent { } { device := "d1", readings := [{ name := "temp", value := "72" }] } 5 1 true true).db 0 5 = ([], none) ∧
    (AddEvent { } { device := "d1", readings := [{ name := "temp", value := "72" }] } 5 1 true true).event.created = 5 :=
  eventsOlderThanAge_zero_after_add_empty { } { device := "d1", readings := [{ name := "temp", value := "72" }] } 5 1 (by decide) rfl

/-- C10: for an event with no embedded readings, `AddEvent` issues no insert into the
readings collection — the outcome does not depend on the readings-insert flag at all,
the readings collection is unchanged — and proceeds directly to inserting the event
document. -/
theorem addEvent_no_readings_insert_when_empty (db : MongoDB) (e : Event)
    (now : Int) (ctr : Nat) (rok eok : Bool) (h : e.readings = []) :
    AddEvent db e now ctr rok eok = AddEvent db e now ctr true eok ∧
    (AddEvent db e now ctr rok eok).db.readings = db.readings ∧
    (AddEvent db e now ctr rok true).db.events =
      db.events ++ [(AddEvent db e now ctr rok true).event] := by
  cases eok <;> simp [AddEvent, insertEventDoc, h]

/-- Witness for `addEvent_no_readings_insert_when_empty` on a concrete database holding
one unrelated reading. -/
theorem addEvent_no_readings_insert_when_empty_witness :
    AddEvent { readings := [{ id := 3 }] } { device := "d2" } 7 4 false false =
      AddEvent { readings := [{ id := 3 }] } { device := "d2" } 7 4 true false ∧
    (AddEvent { readings := [{ id := 3 }] } { device := "d2" } 7 4 false false).db.readings =
      ({ readings := [{ id := 3 }] } : MongoDB).readings ∧
    (AddEvent { readings := [{ id := 3 }] } { device := "d2" } 7 4 false true).db.events =
      ({ readings := [{ id := 3 }] } : MongoDB).events ++
        [(AddEvent { readings := [{ id := 3 }] } { device := "d2" } 7 4 false true).event] :=
  addEvent_no_readings_insert_when_empty { readings := [{ id := 3 }] } { device := "d2" } 7 4 false false rfl

/-- The name-set loop with all store calls succeeding appends, in input order, the
descriptor found for each name, skipping names that resolve to nothing. -/
theorem vdByNameLoop_all_ok (db : MongoDB) :
    ∀ (names : List (String × Bool)) (acc : List ValueDescriptor),
      (∀ p ∈ names, p.2 = true) →
      vdByNameLoop db acc names =
        (acc ++ names.filterMap
          (fun p => db.valueDescriptors.find? (fun w => decide (w.name = p.1))), none)
  | [], acc, _ => by simp [vdByNameLoop]
  | (name, ok) :: rest, acc, h => by
      have hok : ok = true := h (name, ok) (List.mem_cons_self _ _)
      subst hok
      have hrest : ∀ p ∈ rest, p.2 = true := fun p hp => h p (List.mem_cons_of_mem _ hp)
      cases hfind : db.valueDescriptors.find? (fun w => decide (w.name = name)) with
      | none =>
          simp [vdByNameLoop, ValueDescriptorByName, getValueDescriptor, hfind,
            vdByNameLoop_all_ok db rest acc hrest]
      | some v =>
          simp [vdByNameLoop, ValueDescriptorByName, getValueDescriptor, hfind,
            vdByNameLoop_all_ok db rest (acc ++ [v]) hrest]

/-- The name-set loop aborts with the empty list and the error as soon as a store call
fails, whatever was already accumulated and whatever names follow. -/
theorem vdByNameLoop_abort (db : MongoDB) (name : String) (post : List (String × Bool)) :
    ∀ (pre : List (String × Bool)) (acc : List ValueDescriptor),
      (∀ p ∈ pre, p.2 = true) →
      vdByNameLoop db acc (pre ++ (name, false) :: post) = ([], some Err.unexpected)
  | [], acc, _ => by simp [vdByNameLoop, ValueDescriptorByName]
  | (n, ok) :: pre, acc, h => by
      have hok : ok = true := h (n, ok) (List.mem_cons_self _ _)
      subst hok
      have hpre : ∀ p ∈ pre, p.2 = true := fun p hp => h p (List.mem_cons_of_mem _ hp)
      cases hfind : db.valueDescriptors.find? (fun w => decide (w.name = n)) with
      | none =>
          simp [vdByNameLoop, ValueDescriptorByName, getValueDescriptor, hfind,
            vdByNameLoop_abort db name post pre acc hpre]
      | some v =>
          simp [vdByNameLoop, ValueDescriptorByName, getValueDescriptor, hfind,
            vdByNameLoop_abort db name post pre (acc ++ [v]) hpre]

/-- C7: `ValueDescriptorsByName` fetches each name sequentially in list order; when
every store call succeeds it returns, with no error, exactly the descriptors found
(names resolving to not-found silently omitted); the first lookup failing with any
other error aborts immediately with the empty list and that error. -/
theorem valueDescriptorsByName_skips_notFound_aborts_error (db : MongoDB)
    (names pre post : List (String × Bool)) (name : String)
    (hall : ∀ p ∈ names, p.2 = true) (hpre : ∀ p ∈ pre, p.2 = true) :
    ValueDescriptorsByName db names =
      (names.filterMap
        (fun p => db.valueDescriptors.find? (fun w => decide (w.name = p.1))), none) ∧
    ValueDescriptorsByName db (pre ++ (name, false) :: post) = ([], some Err.unexpected) := by
  constructor
  · simpa [ValueDescriptorsByName] using vdByNameLoop_all_ok db names [] hall
  · simpa [ValueDescriptorsByName] using vdByNameLoop_abort db name post pre [] hpre

/-- Witness for `valueDescriptorsByName_skips_notFound_aborts_error`: a store with one
descriptor named "temp"; the lookup of ["temp", "hum"] succeeds returning only "temp",
and a failing call for "hum" placed after "temp" aborts the whole lookup. -/
theorem valueDescriptorsByName_skips_notFound_aborts_error_witness :
    ValueDescriptorsByName { valueDescriptors := [{ id := 1, name := "temp" }] }
        [("temp", true), ("hum", true)] =
      (([("temp", true), ("hum", true)] : List (String × Bool)).filterMap
        (fun p => ({ valueDescriptors := [{ id := 1, name := "temp" }] } : MongoDB).valueDescriptors.find?
          (fun w => decide (w.name = p.1))), none) ∧
    ValueDescriptorsByName { valueDescriptors := [{ id := 1, name := "temp" }] }
        ([("temp", true)] ++ ("hum", false) :: [("temp", true)]) = ([], some Err.unexpected) :=
  valueDescriptorsByName_skips_notFound_aborts_error
    { valueDescriptors := [{ id := 1, name := "temp" }] }
    [("temp", true), ("hum", true)] [("temp", true)] [("temp", true)] "hum"
    (by decide) (by decide)

/-- C6: `UpdateValueDescriptor` under the name-uniqueness invariant: when a stored
document other than the one carrying the updated descriptor's id owns the prospective
name, the operation fails `ErrNotUnique` and changes nothing; otherwise it stamps the
modification time and replaces the document by id, failing `ErrNotFound` when no
document carries that id. -/
theorem updateValueDescriptor_unique_name_check (db : MongoDB) (v : ValueDescriptor)
    (now : Int)
    (hu : ∀ w₁ ∈ db.valueDescriptors, ∀ w₂ ∈ db.valueDescriptors,
        w₁.name = w₂.name → w₁.id = w₂.id) :
    ((∃ w ∈ db.valueDescriptors, w.name = v.name ∧ w.id ≠ v.id) →
        UpdateValueDescriptor db v now = (some Err.notUnique, db)) ∧
    ((∀ w ∈ db.valueDescriptors, w.name = v.name → w.id = v.id) →
        ((∃ w ∈ db.valueDescriptors, w.id = v.id) →
            UpdateValueDescriptor db v now =
              (none, { db with valueDescriptors := replaceFirstBy ValueDescriptor.id db.valueDescriptors ({ v with modified := now }) })) ∧
        ((∀ w ∈ db.valueDescriptors, w.id ≠ v.id) →
            UpdateValueDescriptor db v now = (some Err.notFound, db))) := by
  cases hfind : db.valueDescriptors.find? (fun w => decide (w.name = v.name)) with
  | some vd =>
    have hvdmem : vd ∈ db.valueDescriptors := List.mem_of_find?_eq_some hfind
    have hvdname : vd.name = v.name := by
      have := List.find?_some hfind
      simpa using this
    constructor
    · rintro ⟨w, hw, hwname, hwid⟩
      have hid : w.id = vd.id := hu w hw vd hvdmem (by rw [hwname, hvdname])
      have hne : vd.id ≠ v.id := by
        rw [← hid]
        exact hwid
      simp [UpdateValueDescriptor, hfind, hne]
    · intro hforall
      have hid : vd.id = v.id := hforall vd hvdmem hvdname
      constructor
      · rintro ⟨w, hw, hwid⟩
        have hany : db.valueDescriptors.any
            (fun u => decide (u.id = ({ v with modified := now } : ValueDescriptor).id)) = true := by
          simp only [List.any_eq_true]
          exact ⟨w, hw, by simpa using hwid⟩
        simp [UpdateValueDescriptor, hfind, hid, updateId, hany]
      · intro hnone
        have hany : db.valueDescriptors.any
            (fun u => decide (u.id = ({ v with modified := now } : ValueDescriptor).id)) = false := by
          simp only [List.any_eq_false]
          intro u hu'
          simpa using hnone u hu'
        simp [UpdateValueDescriptor, hfind, hid, updateId, hany]
  | none =>
    have hnone : ∀ w ∈ db.valueDescriptors, w.name ≠ v.name := by
      intro w hw
      have := List.find?_eq_none.mp hfind w hw
      simpa using this
    constructor
    · rintro ⟨w, hw, hwname, _⟩
      exact absurd hwname (hnone w hw)
    · intro _
      constructor
      · rintro ⟨w, hw, hwid⟩
        have hany : db.valueDescriptors.any
            (fun u => decide (u.id = ({ v with modified := now } : ValueDescriptor).id)) = true := by
          simp only [List.any_eq_true]
          exact ⟨w, hw, by simpa using hwid⟩
        simp [UpdateValueDescriptor, hfind, updateId, hany]
      · intro hnone'
        have hany : db.valueDescriptors.any
            (fun u => decide (u.id = ({ v with modified := now } : ValueDescriptor).id)) = false := by
          simp only [List.any_eq_false]
          intro u hu'
          simpa using hnone' u hu'
        simp [UpdateValueDescriptor, hfind, updateId, hany]

/-- Witness for `updateValueDescriptor_unique_name_check`: updating descriptor id 3 to
the name "temp" owned by the stored descriptor id 1 fails `ErrNotUnique` and leaves the
store unchanged. -/
theorem updateValueDescriptor_unique_name_check_witness :
    UpdateValueDescriptor
        { valueDescriptors := [{ id := 1, name := "temp" }, { id := 2, name := "hum" }] }
        { id := 3, name := "temp" } 7 =
      (some Err.notUnique,
        { valueDescriptors := [{ id := 1, name := "temp" }, { id := 2, name := "hum" }] }) :=
  (updateValueDescriptor_unique_name_check
      { valueDescriptors := [{ id := 1, name := "temp" }, { id := 2, name := "hum" }] }
      { id := 3, name := "temp" } 7 (by decide)).1 (by decide)

/-- An upsert keyed on a name that some stored descriptor owns replaces the first such
descriptor with the payload (its id kept), leaving everything around it in place. -/
theorem upsertReplace_split (v : ValueDescriptor) :
    ∀ (l : List ValueDescriptor), l.any (fun w => decide (w.name = v.name)) = true →
      ∃ pre w post, l = pre ++ w :: post ∧ (∀ u ∈ pre, u.name ≠ v.name) ∧ w.name = v.name ∧
        upsertReplace l v = pre ++ ({ v with id := w.id }) :: post
  | [], h => by simp at h
  | w :: ws, h => by
      by_cases hw : w.name = v.name
      · exact ⟨[], w, ws, rfl, by simp, hw, by simp [upsertReplace, hw]⟩
      · have hany : ws.any (fun u => decide (u.name = v.name)) = true := by
          simpa [hw] using h
        obtain ⟨pre, u, post, hsplit, hpre, hu, hrep⟩ := upsertReplace_split v ws hany
        refine ⟨w :: pre, u, post, by simp [hsplit], ?_, hu, by simp [upsertReplace, hw, hrep]⟩
        intro x hx
        rcases List.mem_cons.mp hx with h1 | h1
        · subst h1
          exact hw
        · exact hpre x h1

/-- C1 counterexample: adding a descriptor named "temp" while one is already stored
returns `ErrNotUnique` — but the upsert has replaced the stored document's payload with
the caller's (uomLabel "F" became "C", the creation time was re-stamped), so the stored
document is not unchanged on this error, contrary to the claim. -/
theorem addValueDescriptor_duplicate_overwrites_payload :
    (AddValueDescriptor
        { valueDescriptors := [{ id := 1, name := "temp", uomLabel := "F", created := 5 }] }
        { name := "temp", uomLabel := "C" } 99 7).1.2 = some Err.notUnique ∧
    (AddValueDescriptor
        { valueDescriptors := [{ id := 1, name := "temp", uomLabel := "F", created := 5 }] }
        { name := "temp", uomLabel := "C" } 99 7).2.valueDescriptors ≠
      [{ id := 1, name := "temp", uomLabel := "F", created := 5 }] ∧
    (AddValueDescriptor
        { valueDescriptors := [{ id := 1, name := "temp", uomLabel := "F", created := 5 }] }
        { name := "temp", uomLabel := "C" } 99 7).2.valueDescriptors =
      [{ id := 1, name := "temp", uomLabel := "C", created := 99 }] := by
  decide

/-- C1 (amended): adding a ValueDescriptor whose name an already-stored document owns
returns `ErrNotUnique` with the caller's id and never creates a second document with
that name (the collection keeps its size and its per-name counts; events and readings
are untouched) — but the caller's payload is applied to the pre-existing document: the
first stored document with that name is replaced by the caller's descriptor, stamped
with the fresh creation time, keeping only its stored id. -/
theorem addValueDescriptor_duplicate_notUnique_no_second_doc (db : MongoDB)
    (v : ValueDescriptor) (now : Int) (ctr : Nat)
    (h : db.valueDescriptors.any (fun w => decide (w.name = v.name)) = true) :
    (AddValueDescriptor db v now ctr).1.1 = v.id ∧
    (AddValueDescriptor db v now ctr).1.2 = some Err.notUnique ∧
    (AddValueDescriptor db v now ctr).2.events = db.events ∧
    (AddValueDescriptor db v now ctr).2.readings = db.readings ∧
    (AddValueDescriptor db v now ctr).2.valueDescriptors.length =
      db.valueDescriptors.length ∧
    (∀ n, (AddValueDescriptor db v now ctr).2.valueDescriptors.countP
        (fun w => decide (w.name = n)) =
      db.valueDescriptors.countP (fun w => decide (w.name = n))) ∧
    ∃ pre w post, db.valueDescriptors = pre ++ w :: post ∧
      (∀ u ∈ pre, u.name ≠ v.name) ∧ w.name = v.name ∧
      (AddValueDescriptor db v now ctr).2.valueDescriptors =
        pre ++ ({ v with created := now, id := w.id }) :: post := by
  obtain ⟨pre, w, post, hsplit, hpre, hw, hrep⟩ :=
    upsertReplace_split ({ v with created := now }) db.valueDescriptors (by simpa using h)
  have hres : (AddValueDescriptor db v now ctr).2.valueDescriptors =
      pre ++ ({ v with created := now, id := w.id }) :: post := by
    simpa [AddValueDescriptor, h] using hrep
  refine ⟨by simp [AddValueDescriptor, h], by simp [AddValueDescriptor, h],
    by simp [AddValueDescriptor, h], by simp [AddValueDescriptor, h], ?_, ?_, pre, w, post,
    hsplit, hpre, hw, hres⟩
  · rw [hres, hsplit]
    simp
  · intro n
    rw [hres, hsplit]
    simp only [List.countP_append, List.countP_cons]
    have hn : ({ v with created := now, id := w.id } : ValueDescriptor).name = v.name := rfl
    by_cases hvn : v.name = n
    · simp [hn, hvn, ← hw, hvn ▸ hw]
    · have h1 : (decide (({ v with created := now, id := w.id } : ValueDescriptor).name = n)) = false := by
        simp [hn, hvn]
      have h2 : (decide (w.name = n)) = false := by
        simp [hw, hvn]
      simp [h1, h2]

/-- Witness for `addValueDescriptor_duplicate_notUnique_no_second_doc` at a store with
one descriptor named "temp". -/
theorem addValueDescriptor_duplicate_notUnique_no_second_doc_witness :
    (AddValueDescriptor { valueDescriptors := [{ id := 1, name := "temp", uomLabel := "F" }] }
        { id := 9, name := "temp", uomLabel := "C" } 99 7).1.1 = 9 ∧
    (AddValueDescriptor { valueDescriptors := [{ id := 1, name := "temp", uomLabel := "F" }] }
        { id := 9, name := "temp", uomLabel := "C" } 99 7).1.2 = some Err.notUnique ∧
    (AddValueDescriptor { valueDescriptors := [{ id := 1, name := "temp", uomLabel := "F" }] }
        { id := 9, name := "temp", uomLabel := "C" } 99 7).2.valueDescriptors.length = 1 := by
  have h := addValueDescriptor_duplicate_notUnique_no_second_doc
    { valueDescriptors := [{ id := 1, name := "temp", uomLabel := "F" }] }
    { id := 9, name := "temp", uomLabel := "C" } 99 7 (by decide)
  exact ⟨h.1, h.2.1, h.2.2.2.2.1.trans (by decide)⟩

/-- A by-id whole-document replacement on a split collection. -/
theorem replaceFirstBy_split {α : Type} (idOf : α → ObjectId) (v : α) :
    ∀ (pre : List α) (w : α) (post : List α),
      (∀ u ∈ pre, idOf u ≠ idOf v) → idOf w = idOf v →
      replaceFirstBy idOf (pre ++ w :: post) v = pre ++ v :: post
  | [], w, post, _, hw => by simp [replaceFirstBy, hw]
  | u :: pre, w, post, hpre, hw => by
      have hu : idOf u ≠ idOf v := hpre u (List.mem_cons_self _ _)
      simp [replaceFirstBy, hu,
        replaceFirstBy_split idOf v pre w post (fun x hx => hpre x (List.mem_cons_of_mem _ hx)) hw]

/-- A sample stored reading used for concrete evaluations. -/
def sampleReading9 : Reading :=
  { id := 9, name := "temp", device := "d1", created := 1 }

/-- A sample stored event (id 5) embedding `sampleReading9`. -/
def sampleEvent5 : Event :=
  { id := 5, device := "d1", created := 1, readings := [sampleReading9] }

/-- A sample database holding `sampleEvent5` and its reading. -/
def sampleDb8 : MongoDB :=
  { events := [sampleEvent5], readings := [sampleReading9] }

/-- C8 counterexample: updating the stored event (id 5, one embedded reading) with a
caller event carrying no readings succeeds and leaves the readings collection alone —
but the stored event document's embedded readings list becomes the caller's empty list,
so the event's embedded readings collection is changed by the update, contrary to the
claim. -/
theorem updateEvent_changes_embedded_readings :
    (UpdateEvent sampleDb8 { id := 5, device := "d1", created := 1, readings := [] } 42).1 = none ∧
    (UpdateEvent sampleDb8 { id := 5, device := "d1", created := 1, readings := [] } 42).2.readings =
      [sampleReading9] ∧
    ((UpdateEvent sampleDb8 { id := 5, device := "d1", created := 1, readings := [] } 42).2.events.map
        Event.readings ≠ [[sampleReading9]]) := by
  decide

/-- C8 (amended): `UpdateEvent` stamps the modification time and replaces the event
document by id, returning `ErrNotFound` when the id is absent; it never touches the
readings collection (or the value-descriptor collection).  The event document is
replaced wholesale with the caller's event, so the stored embedded readings list becomes
the caller-supplied list (it is preserved only when the caller passes the stored list);
the update itself does not stamp or alter the readings it is given. -/
theorem updateEvent_replaces_doc_readings_collection_untouched (db : MongoDB)
    (e : Event) (now : Int) :
    (UpdateEvent db e now).2.readings = db.readings ∧
    (UpdateEvent db e now).2.valueDescriptors = db.valueDescriptors ∧
    (∀ pre w post, db.events = pre ++ w :: post → (∀ u ∈ pre, u.id ≠ e.id) → w.id = e.id →
        UpdateEvent db e now =
          (none, { db with events := pre ++ ({ e with modified := now }) :: post })) ∧
    ((∀ w ∈ db.events, w.id ≠ e.id) →
        UpdateEvent db e now = (some Err.notFound, db)) := by
  refine ⟨?_, ?_, ?_, ?_⟩
  · cases h : updateId Event.id db.events { e with modified := now } <;>
      simp [UpdateEvent, h]
  · cases h : updateId Event.id db.events { e with modified := now } <;>
      simp [UpdateEvent, h]
  · intro pre w post hsplit hpre hw
    have hany : (pre ++ w :: post).any
        (fun u => decide (Event.id u = Event.id ({ e with modified := now } : Event))) = true := by
      simp only [List.any_eq_true]
      exact ⟨w, by simp, by simpa using hw⟩
    have hrep := replaceFirstBy_split Event.id ({ e with modified := now } : Event) pre w post
      (by intro u hu; simpa using hpre u hu) (by simpa using hw)
    simp [UpdateEvent, updateId, hsplit, hany, hrep]
  · intro hall
    have hany : db.events.any
        (fun u => decide (Event.id u = Event.id ({ e with modified := now } : Event))) = false := by
      simp only [List.any_eq_false]
      intro u hu
      simpa using hall u hu
    simp [UpdateEvent, updateId, hany]

/-- Witness for `updateEvent_replaces_doc_readings_collection_untouched`: replacing the
single stored event (id 5) with a caller event of the same id. -/
theorem updateEvent_replaces_doc_readings_collection_untouched_witness :
    UpdateEvent
        { events := [{ id := 5, device := "d1", created := 1 }],
          readings := [{ id := 9, name := "temp" }] }
        { id := 5, device := "d1", created := 1, pushed := 3 } 42 =
      (none,
        { events := [] ++ ({ ({ id := 5, device := "d1", created := 1, pushed := 3 } : Event) with modified := 42 }) :: [],
          readings := [{ id := 9, name := "temp" }] }) :=
  (updateEvent_replaces_doc_readings_collection_untouched
      { events := [{ id := 5, device := "d1", created := 1 }],
        readings := [{ id := 9, name := "temp" }] }
      { id := 5, device := "d1", created := 1, pushed := 3 } 42).2.2.1
    [] { id := 5, device := "d1", created := 1 } [] rfl (by decide) (by decide)

end EdgexMongo
